import Mathlib

set_option linter.unusedVariables false

/-! Shallow embedding of the data-fetch pipeline of the
Cross-Sectional-Momentum-Research repository: the order-book snapshot saver
(src/data_fetch/orderbook_snapshot_saver.js and its earlier variant
src/unnamed/part_000) and the token-list scripts
(src/data_fetch/binance_token_list.js, src/unnamed/part_001).

Strings are modelled as lists of characters; JS numbers as rationals;
timestamps as naturals. Text-serialization mechanics (exact decimal
formatting) are explicitly out of the spec's scope, so numbers are rendered
by a fixed concrete digit renderer. -/

/-- Character strings are modelled as lists of characters. -/
abbrev Str := List Char

/-- Order-book side. -/
inductive Side where
  | bid
  | ask
deriving DecidableEq, Repr

/-- A single price level, as in tardis-dev book messages
(`bids[i] = { price, amount }`). -/
structure BookLevel where
  price : ℚ
  amount : ℚ
deriving DecidableEq, Repr

/-- Modelled from the spec: a normalized book-delta event
(`BookDelta: exchangeTimestamp, localTimestamp, side, price, size`, §3);
the event type produced by the external `normalizeBookChanges` transport,
which is not part of this repository. Size 0 means level removal. -/
structure BookDelta where
  side : Side
  price : ℚ
  size : ℚ
  exchangeTimestamp : Nat
  localTimestamp : Nat
deriving DecidableEq, Repr

/-- Insert or replace a level in a best-first (descending price) bid list. -/
def insertLevelDesc : List BookLevel → ℚ → ℚ → List BookLevel
  | [], p, s => [⟨p, s⟩]
  | l :: rest, p, s =>
    if l.price < p then ⟨p, s⟩ :: l :: rest
    else if l.price = p then ⟨p, s⟩ :: rest
    else l :: insertLevelDesc rest p s

/-- Insert or replace a level in a best-first (ascending price) ask list. -/
def insertLevelAsc : List BookLevel → ℚ → ℚ → List BookLevel
  | [], p, s => [⟨p, s⟩]
  | l :: rest, p, s =>
    if p < l.price then ⟨p, s⟩ :: l :: rest
    else if l.price = p then ⟨p, s⟩ :: rest
    else l :: insertLevelAsc rest p s

/-- Remove the level at price `p`, a no-op when absent. -/
def removeLevel (ls : List BookLevel) (p : ℚ) : List BookLevel :=
  ls.filter (fun l => l.price != p)

/-- Modelled from the spec: the Book State Store (§4.1) — per side a
price-ordered collection of levels, best-first. -/
structure BookState where
  bids : List BookLevel
  asks : List BookLevel
deriving DecidableEq, Repr

/-- Modelled from the spec: `applyDelta` (§4.1). Size 0 removes the entry at
the delta's price if present; a nonzero size inserts-or-replaces it. -/
def applyDelta (st : BookState) (d : BookDelta) : BookState :=
  match d.side with
  | Side.bid =>
    if d.size = 0 then { st with bids := removeLevel st.bids d.price }
    else { st with bids := insertLevelDesc st.bids d.price d.size }
  | Side.ask =>
    if d.size = 0 then { st with asks := removeLevel st.asks d.price }
    else { st with asks := insertLevelAsc st.asks d.price d.size }

/-- Modelled from the spec: a SnapshotRecord (§3) — the top `depth` levels per
side, stamped with the triggering delta's timestamps. -/
structure SnapshotRecord where
  timestamp : Nat
  localTimestamp : Nat
  bids : List BookLevel
  asks : List BookLevel
deriving DecidableEq, Repr

/-- The snapshot interval configured by the saver:
`computeBookSnapshots( depth: 1, interval: 60 * 1000 )`. -/
def interval : Nat := 60 * 1000

/-- The snapshot depth configured by the saver. -/
def depth : Nat := 1

/-- Modelled from the spec: the first interval boundary after `t`
("first boundary = timestamp of first observed event rounded/aligned per
configuration", §4.2). Aligned to the wall-clock grid of multiples of
`interval`, strictly after `t`. -/
def alignBoundary (t : Nat) : Nat := (t / interval + 1) * interval

/-- The snapshot record read at the current book state, stamped with the
triggering delta's timestamps (§4.2). -/
def mkRecord (d : BookDelta) (book : BookState) : SnapshotRecord :=
  { timestamp := d.exchangeTimestamp
    localTimestamp := d.localTimestamp
    bids := book.bids.take depth
    asks := book.asks.take depth }

/-- Modelled from the spec: the boundary-crossing emission loop of §4.2 —
"emit one record per skipped boundary", advancing the boundary by `interval`
each time, while the triggering delta's timestamp `t` has reached the next
boundary `nb`. The first argument is structural fuel, always called with at
least `t + 1 - nb` so that the loop never stops early. -/
def emitLoopGo (rec : SnapshotRecord) (t : Nat) : Nat → Nat → Nat × List SnapshotRecord
  | 0, nb => (nb, [])
  | fuel + 1, nb =>
    if nb ≤ t then
      let r := emitLoopGo rec t fuel (nb + interval)
      (r.1, rec :: r.2)
    else (nb, [])

/-- Emit one snapshot record per boundary in `[nb, t]` on the `interval` grid,
returning the advanced boundary and the emitted records. -/
def emitLoop (rec : SnapshotRecord) (nb t : Nat) : Nat × List SnapshotRecord :=
  emitLoopGo rec t (t + 1 - nb) nb

/-- Modelled from the spec: the Sampler's state (§4.2) — the book plus the
next interval boundary (`none` while Idle, before the first delta). -/
structure SamplerState where
  book : BookState
  nextBoundary : Option Nat
deriving DecidableEq, Repr

/-- Modelled from the spec: `consume(delta)` (§4.2) — apply the delta to the
book, then on the first delta set the first boundary (no emission: the first
boundary is strictly after the first event), otherwise emit one record per
boundary crossed by the delta's timestamp, at the post-application state. -/
def consume (st : SamplerState) (d : BookDelta) : SamplerState × List SnapshotRecord :=
  let book := applyDelta st.book d
  match st.nextBoundary with
  | none => ({ book := book, nextBoundary := some (alignBoundary d.exchangeTimestamp) }, [])
  | some nb =>
    let r := emitLoop (mkRecord d book) nb d.exchangeTimestamp
    ({ book := book, nextBoundary := some r.1 }, r.2)

/-- Run the sampler over a whole delta sequence, concatenating emissions. -/
def consumeAll (st : SamplerState) : List BookDelta → SamplerState × List SnapshotRecord
  | [] => (st, [])
  | d :: rest =>
    let r := consume st d
    let r2 := consumeAll r.1 rest
    (r2.1, r.2 ++ r2.2)

/-- The Idle sampler state: empty book, no boundary yet. -/
def initSampler : SamplerState :=
  { book := { bids := [], asks := [] }, nextBoundary := none }

/-- All snapshot records emitted over a delta sequence from the Idle state. -/
def runSampler (ds : List BookDelta) : List SnapshotRecord :=
  (consumeAll initSampler ds).2

/-- The number of interval boundaries (multiples of `interval` on the
wall-clock grid) crossed when time advances from `t0` to `tn`: the multiples
of `interval` in the half-open range `(t0, tn]`. -/
def boundariesCrossed (t0 tn : Nat) : Nat :=
  ((Finset.Ioc t0 tn).filter (fun b => interval ∣ b)).card

/-- A decimal digit character (`48 = '0'`). -/
def digitChar (d : Nat) : Char := Char.ofNat (48 + d)

/-- Decimal digit renderer; the first argument is structural fuel, always
called with at least `n + 1`. -/
def renderNatGo : Nat → Nat → Str
  | 0, _ => []
  | fuel + 1, n =>
    if n < 10 then [digitChar n]
    else renderNatGo fuel (n / 10) ++ [digitChar (n % 10)]

/-- Fixed concrete decimal rendering of a natural number. -/
def renderNat (n : Nat) : Str := renderNatGo (n + 1) n

/-- Fixed concrete rendering of an integer. -/
def renderInt (i : ℤ) : Str :=
  if i < 0 then '-' :: renderNat i.natAbs else renderNat i.natAbs

/-- Fixed concrete rendering of a rational number (stand-in for the JS number
serialization, which the spec puts out of scope). -/
def renderQ (q : ℚ) : Str :=
  if q.den = 1 then renderInt q.num
  else renderInt q.num ++ '/' :: renderNat q.den

/-- A normalized tardis-dev message as consumed by the saving loop: a type
tag plus the fields the loop reads, and the identifying fields every
normalized message carries. -/
structure Message where
  type : Str
  symbol : Str
  exchange : Str
  timestamp : Nat
  localTimestamp : Nat
  bids : List BookLevel
  asks : List BookLevel
deriving DecidableEq, Repr

/-- The `book_snapshot` message type tag. -/
def bookSnapshotType : Str := "book_snapshot".data

/-- The `book_change` message type tag. -/
def bookChangeType : Str := "book_change".data

/-- The pass-through message for a book delta. -/
def deltaMsg (sym exch : Str) (d : BookDelta) : Message :=
  { type := bookChangeType, symbol := sym, exchange := exch
    timestamp := d.exchangeTimestamp, localTimestamp := d.localTimestamp
    bids := match d.side with
            | Side.bid => [{ price := d.price, amount := d.size }]
            | Side.ask => []
    asks := match d.side with
            | Side.bid => []
            | Side.ask => [{ price := d.price, amount := d.size }] }

/-- The message carrying an emitted snapshot record. -/
def snapMsg (sym exch : Str) (r : SnapshotRecord) : Message :=
  { type := bookSnapshotType, symbol := sym, exchange := exch
    timestamp := r.timestamp, localTimestamp := r.localTimestamp
    bids := r.bids, asks := r.asks }

/-- The message stream produced by `compute`: each source message is passed
through, followed by the book_snapshot messages its consumption emitted. -/
def computeGo (sym exch : Str) (st : SamplerState) : List BookDelta → List Message
  | [] => []
  | d :: rest =>
    let r := consume st d
    deltaMsg sym exch d :: (r.2.map (snapMsg sym exch) ++ computeGo sym exch r.1 rest)

/-- Modelled from the spec: the
`compute(messages, computeBookSnapshots( depth 1, interval 60000 ))` pipeline
(external tardis-dev code; §4.2): the source messages with the emitted
book_snapshot messages inserted after their triggering message. -/
def computeWithSnapshots (sym exch : Str) (ds : List BookDelta) : List Message :=
  computeGo sym exch initSampler ds

/-- JS `x || ''` applied to a number: the empty string when the value is 0
(falsy), else the rendered number. -/
def orEmptyQ (q : ℚ) : Str := if q = 0 then [] else renderQ q

/-- `message.bids[0]?.price || ''`. -/
def bidPrice0 (m : Message) : Str :=
  match m.bids.head? with
  | none => []
  | some l => orEmptyQ l.price

/-- `message.bids[0]?.amount || ''`. -/
def bidAmount0 (m : Message) : Str :=
  match m.bids.head? with
  | none => []
  | some l => orEmptyQ l.amount

/-- `message.asks[0]?.price || ''`. -/
def askPrice0 (m : Message) : Str :=
  match m.asks.head? with
  | none => []
  | some l => orEmptyQ l.price

/-- `message.asks[0]?.amount || ''`. -/
def askAmount0 (m : Message) : Str :=
  match m.asks.head? with
  | none => []
  | some l => orEmptyQ l.amount

/-- The six comma-separated fields of a snapshot CSV row, in source order. -/
def rowBody (m : Message) : Str :=
  renderNat m.timestamp
    ++ ',' :: (renderNat m.localTimestamp
    ++ ',' :: (bidPrice0 m
    ++ ',' :: (bidAmount0 m
    ++ ',' :: (askPrice0 m
    ++ ',' :: askAmount0 m))))

/-- `stringify( [row], header false )`: a single newline-terminated CSV
row, no header. -/
def csvRowOf (m : Message) : Str := rowBody m ++ ['\n']

/-- The CSV header line text. -/
def headerText : Str :=
  "timestamp,localTimestamp,bid_price_0,bid_amount_0,ask_price_0,ask_amount_0".data

/-- The header row written at construction when the file does not exist. -/
def headerRow : Str := headerText ++ ['\n']

/-- `fs.appendFile`: appends to the file, creating it when missing. -/
def appendFileOp (file : Option Str) (row : Str) : Option Str :=
  match file with
  | none => some row
  | some c => some (c ++ row)

/-- A diagnostics-log line: `logMessage` writes a wall-clock timestamp and
the message text. -/
structure LogEntry where
  time : Nat
  text : Str
deriving DecidableEq, Repr

/-- The early-return diagnostic text of `startSavingSnapshots`. -/
def streamNotInitText : Str :=
  "Stream not initialized. Call initializeStream() before starting.".data

/-- The success log text of the append callback. -/
def savedRowText : Str := "Processed and saved CSV row".data

/-- The failure log text of the append callback, for error detail `e`. -/
def writeErrorText (e : Str) : Str := "Error writing to CSV file: ".data ++ e

/-- The observable outcome of the saving loop: final CSV file contents, the
diagnostics log, and the rows whose append was attempted, in order. -/
structure RunOutput where
  file : Option Str
  log : List LogEntry
  attempts : List Str
deriving DecidableEq, Repr

/-- The `for await` loop of `startSavingSnapshots`: for each `book_snapshot`
message build the CSV row and attempt to append it. `appendErr i` is the
outcome the file system reports for the i-th append (`none` = success) and
`clock i` the wall-clock time its callback logs at; a failure is logged and
the loop continues with the next message, the row is not re-attempted. -/
def processMessagesGo (appendErr : Nat → Option Str) (clock : Nat → Nat) :
    List Message → Nat → Option Str → RunOutput
  | [], _, file => { file := file, log := [], attempts := [] }
  | m :: rest, i, file =>
    if m.type = bookSnapshotType then
      let row := csvRowOf m
      match appendErr i with
      | none =>
        let r := processMessagesGo appendErr clock rest (i + 1) (appendFileOp file row)
        { file := r.file, log := { time := clock i, text := savedRowText } :: r.log
          attempts := row :: r.attempts }
      | some e =>
        let r := processMessagesGo appendErr clock rest (i + 1) file
        { file := r.file, log := { time := clock i, text := writeErrorText e } :: r.log
          attempts := row :: r.attempts }
    else processMessagesGo appendErr clock rest i file

/-- The constant `this.to_date` (the literal date 2019-11-18 of the
constructor) as a point on the model's timestamp axis. -/
def toDateConst : Nat := 20191118

/-- The `OrderBookSnapshotSaver` instance state
(src/data_fetch/orderbook_snapshot_saver.js). -/
structure OrderBookSnapshotSaver where
  start_date : Nat
  exchange : Str
  symbol : Str
  filePath : Str
  stream : Option (List BookDelta)
  to_date : Nat
deriving DecidableEq, Repr

/-- `path.join a b`. -/
def pathJoin (a b : Str) : Str := a ++ '/' :: b

/-- The constructor of src/data_fetch/orderbook_snapshot_saver.js: records
the configuration, leaves the stream null, fixes `to_date`, and writes the
CSV header iff the destination file does not already exist. Returns the
instance and the new destination-file contents. -/
def mkOrderBookSnapshotSaver (exchange symbol filePath dataDir : Str)
    (start_date : Nat) (file : Option Str) :
    OrderBookSnapshotSaver × Option Str :=
  ({ start_date := start_date, exchange := exchange, symbol := symbol
     filePath := pathJoin dataDir filePath, stream := none, to_date := toDateConst },
   match file with
   | none => some headerRow
   | some c => some c)

/-- Modelled from the spec: `replayNormalized` (external tardis-dev
transport) — replay mode is bounded by a start and an end timestamp and
terminates at the end (§6), so of the provider's event history it delivers
exactly the events with timestamps in the range from `fromTs` inclusive to
`toTs` exclusive, as a finite list. -/
def replayNormalized (fromTs toTs : Nat) (source : List BookDelta) : List BookDelta :=
  source.filter (fun d =>
    decide (fromTs ≤ d.exchangeTimestamp) && decide (d.exchangeTimestamp < toTs))

/-- `initializeStream` of src/data_fetch/orderbook_snapshot_saver.js: builds
the replay stream bounded by the saver's `start_date` and `to_date`, stores
it in `this.stream` and returns it. `source` is the provider's event
history; `none` models a transport that failed to produce a stream. -/
def initializeStream (saver : OrderBookSnapshotSaver)
    (source : Option (List BookDelta)) :
    OrderBookSnapshotSaver × Option (List BookDelta) :=
  match source with
  | none => ({ saver with stream := none }, none)
  | some evs =>
    let s := replayNormalized saver.start_date saver.to_date evs
    ({ saver with stream := some s }, some s)

/-- `startSavingSnapshots` of src/data_fetch/orderbook_snapshot_saver.js:
initialize the stream first; when no stream came back, log the diagnostic
and return without consuming anything; otherwise run the snapshot pipeline
over it and serialize each book_snapshot message. -/
def startSavingSnapshots (saver : OrderBookSnapshotSaver)
    (source : Option (List BookDelta)) (appendErr : Nat → Option Str)
    (clock : Nat → Nat) (file : Option Str) :
    OrderBookSnapshotSaver × RunOutput :=
  let r := initializeStream saver source
  match r.2 with
  | none =>
    (r.1, { file := file, log := [{ time := clock 0, text := streamNotInitText }]
            attempts := [] })
  | some ds =>
    let msgs := computeWithSnapshots r.1.symbol r.1.exchange ds
    (r.1, processMessagesGo appendErr clock msgs 0 file)

/-- The `OrderBookSnapshotSaver` instance state of the earlier live-stream
variant src/unnamed/part_000. -/
structure ScraperSaver where
  exchange : Str
  symbol : Str
  filePath : Str
  stream : Option (List BookDelta)
deriving DecidableEq, Repr

/-- The data directory of src/unnamed/part_000. -/
def scraperDataDir : Str := "data/uncleaned/orderbook_snapshot_data".data

/-- The constructor of src/unnamed/part_000: records the configuration,
leaves the stream null, and writes the CSV header iff the destination file
does not already exist. -/
def mkScraperSaver (exchange symbol filePath : Str) (file : Option Str) :
    ScraperSaver × Option Str :=
  ({ exchange := exchange, symbol := symbol
     filePath := pathJoin scraperDataDir filePath, stream := none },
   match file with
   | none => some headerRow
   | some c => some c)

/-- `initializeStream` of src/unnamed/part_000: opens the live stream
(`streamNormalized`, open-ended — modelled as the provider's event feed
passed through), stores it in `this.stream`, and returns the snapshot
pipeline applied to it. -/
def scraperInitializeStream (saver : ScraperSaver)
    (source : Option (List BookDelta)) :
    ScraperSaver × Option (List Message) :=
  match source with
  | none => ({ saver with stream := none }, none)
  | some evs =>
    ({ saver with stream := some evs },
     some (computeWithSnapshots saver.symbol saver.exchange evs))

/-- `startSavingSnapshots` of src/unnamed/part_000: the guard tests
`this.stream` BEFORE `initializeStream` has ever run, so it logs the
diagnostic and returns early whenever the stream field is still null — in
particular on every freshly constructed instance. -/
def scraperStartSavingSnapshots (saver : ScraperSaver)
    (source : Option (List BookDelta)) (appendErr : Nat → Option Str)
    (clock : Nat → Nat) (file : Option Str) : ScraperSaver × RunOutput :=
  match saver.stream with
  | none =>
    (saver, { file := file, log := [{ time := clock 0, text := streamNotInitText }]
              attempts := [] })
  | some _ =>
    let r := scraperInitializeStream saver source
    match r.2 with
    | none => (r.1, { file := file, log := [], attempts := [] })
    | some msgs => (r.1, processMessagesGo appendErr clock msgs 0 file)

/-- A symbol entry of the exchange-details response, as projected by the
token-list scripts (`id, type, availableSince`). -/
structure SymbolInfo where
  id : Str
  type : Str
  availableSince : Str
deriving DecidableEq, Repr

/-- The exchange-details response consumed by the token-list scripts. -/
structure ExchangeDetails where
  availableSymbols : List SymbolInfo
deriving DecidableEq, Repr

/-- The token-list CSV header line text. -/
def tokenHeaderText : Str := "id,type,availableSince".data

/-- One CSV line per symbol: `id,type,availableSince` of that symbol. -/
def symbolRow (s : SymbolInfo) : Str :=
  s.id ++ ',' :: s.type ++ ',' :: s.availableSince

/-- JS `rows.flatten` with a newline separator: no trailing newline. -/
def joinRows : List Str → Str
  | [] => []
  | [r] => r
  | r :: rest => r ++ '\n' :: joinRows rest

/-- The whole token-list CSV: the header line (with its newline) followed by
the symbol rows joined by newlines (`csvHeader + csvRows.join`). -/
def tokenCsvContent (syms : List SymbolInfo) : Str :=
  tokenHeaderText ++ '\n' :: joinRows (syms.map symbolRow)

/-- File-system state touched by a token-list script: whether its output
directory exists, and the output file's contents. -/
structure TokenFsState where
  dirExists : Bool
  file : Option Str
deriving DecidableEq, Repr

/-- A console event: standard log or error output. -/
inductive ConsoleEvent where
  | log (text : Str)
  | error (text : Str)
deriving DecidableEq, Repr

/-- The success console message of the token-list scripts. -/
def csvWrittenText : Str := "CSV file written successfully".data

/-- The failure console message of the token-list scripts, for error detail
`e` (both scripts say Binance: part_001 kept the copied text verbatim). -/
def fetchErrorText (e : Str) : Str :=
  "Error fetching Binance exchange details: ".data ++ e

/-- The shared body of the token-list scripts: fetch the exchange details;
on success build the CSV content, create the output directory when missing
and write the file; on a fetch failure only report the error on the console
and leave the file system untouched. `fetch` is the outcome of the external
`getExchangeDetails` call. -/
def tokenListRun (fetch : Except Str ExchangeDetails) (fs : TokenFsState) :
    TokenFsState × List ConsoleEvent :=
  match fetch with
  | Except.error e => (fs, [ConsoleEvent.error (fetchErrorText e)])
  | Except.ok details =>
    let content := tokenCsvContent details.availableSymbols
    ({ dirExists := true, file := some content },
     [ConsoleEvent.log csvWrittenText])

/-- `checkBinanceSymbolAvailability` of src/data_fetch/binance_token_list.js:
`fetch` is the response to `getExchangeDetails` for binance-futures. -/
def checkBinanceSymbolAvailability (fetch : Except Str ExchangeDetails)
    (fs : TokenFsState) : TokenFsState × List ConsoleEvent :=
  tokenListRun fetch fs

/-- `checkBybitSymbolAvailability` of src/unnamed/part_001: `fetch` is the
response to `getExchangeDetails` for bybit. -/
def checkBybitSymbolAvailability (fetch : Except Str ExchangeDetails)
    (fs : TokenFsState) : TokenFsState × List ConsoleEvent :=
  tokenListRun fetch fs

/-- Split a character list at every occurrence of `sep`; the separator is
dropped, and `n` separators yield `n + 1` pieces. -/
def splitOnChar (sep : Char) : Str → List Str
  | [] => [[]]
  | c :: cs =>
    if c = sep then [] :: splitOnChar sep cs
    else
      match splitOnChar sep cs with
      | [] => [[c]]
      | p :: ps => (c :: p) :: ps

/-- C10: if fetching the exchange details fails, the error is caught and
reported on the console, no directory or CSV file is created (the file
system is unchanged), and the function completes normally (it is total). -/
theorem tokenList_fetch_failure_leaves_state_unchanged (e : Str) (fs : TokenFsState) :
    checkBinanceSymbolAvailability (Except.error e) fs
      = (fs, [ConsoleEvent.error (fetchErrorText e)])
    ∧ checkBybitSymbolAvailability (Except.error e) fs
      = (fs, [ConsoleEvent.error (fetchErrorText e)]) :=
  ⟨rfl, rfl⟩

/-- C2 (code evaluation): in src/unnamed/part_000, a freshly constructed
saver has a null stream, so `startSavingSnapshots` logs the diagnostic and
returns early without initializing or consuming the stream — no row is ever
attempted, whatever the available source, and the file is untouched. -/
theorem scraper_fresh_saver_returns_early (ex sym fp : Str) (file : Option Str)
    (source : Option (List BookDelta)) (ae : Nat → Option Str)
    (clk : Nat → Nat) (f : Option Str) :
    (scraperStartSavingSnapshots (mkScraperSaver ex sym fp file).1 source ae clk f).2.attempts
        = []
    ∧ (scraperStartSavingSnapshots (mkScraperSaver ex sym fp file).1 source ae clk f).2.log
        = [{ time := clk 0, text := streamNotInitText }]
    ∧ (scraperStartSavingSnapshots (mkScraperSaver ex sym fp file).1 source ae clk f).2.file
        = f := by
  refine ⟨rfl, rfl, rfl⟩

/-- C7: the stream built by `initializeStream` is bounded by the saver's
replay range — every delivered event's timestamp lies between the configured
`start_date` (inclusive) and the constructor-fixed `to_date` (exclusive) —
and is a sub-sequence of the provider's finite history, hence terminates at
the end timestamp. -/
theorem initializeStream_bounded_by_replay_range (ex sym fp dd : Str) (sd : Nat)
    (file : Option Str) (evs : List BookDelta) (d : BookDelta)
    (hd : d ∈ ((initializeStream (mkOrderBookSnapshotSaver ex sym fp dd sd file).1
                  (some evs)).2.getD [])) :
    sd ≤ d.exchangeTimestamp ∧ d.exchangeTimestamp < toDateConst
    ∧ ((initializeStream (mkOrderBookSnapshotSaver ex sym fp dd sd file).1
          (some evs)).2.getD []).Sublist evs
    ∧ (mkOrderBookSnapshotSaver ex sym fp dd sd file).1.start_date = sd
    ∧ (mkOrderBookSnapshotSaver ex sym fp dd sd file).1.to_date = toDateConst := by
  have hd' : d ∈ replayNormalized sd toDateConst evs := hd
  rw [replayNormalized, List.mem_filter] at hd'
  have hb := hd'.2
  simp only [Bool.and_eq_true, decide_eq_true_eq] at hb
  exact ⟨hb.1, hb.2, List.filter_sublist evs, rfl, rfl⟩

/-- C7 witness: a concrete saver and event history with one in-range event. -/
theorem initializeStream_bounded_by_replay_range_witness :
    5 ≤ (⟨Side.bid, 100, 2, 5, 6⟩ : BookDelta).exchangeTimestamp
    ∧ (⟨Side.bid, 100, 2, 5, 6⟩ : BookDelta).exchangeTimestamp < toDateConst
    ∧ ((initializeStream (mkOrderBookSnapshotSaver [] [] [] [] 5 none).1
          (some [⟨Side.bid, 100, 2, 5, 6⟩])).2.getD []).Sublist [⟨Side.bid, 100, 2, 5, 6⟩]
    ∧ (mkOrderBookSnapshotSaver [] [] [] [] 5 none).1.start_date = 5
    ∧ (mkOrderBookSnapshotSaver [] [] [] [] 5 none).1.to_date = toDateConst :=
  initializeStream_bounded_by_replay_range [] [] [] [] 5 none
    [⟨Side.bid, 100, 2, 5, 6⟩] ⟨Side.bid, 100, 2, 5, 6⟩ (by decide)

/-- The file contents after attempting to append each row in order, the
attempt index starting at `i`: a failed append leaves the file unchanged. -/
def appendRun (ae : Nat → Option Str) : List Str → Nat → Option Str → Option Str
  | [], _, file => file
  | row :: rest, i, file =>
    appendRun ae rest (i + 1)
      (match ae i with
       | none => appendFileOp file row
       | some _ => file)

/-- The log text the append callback of attempt `i` produces. -/
def expectedLogText (ae : Nat → Option Str) (i : Nat) : Str :=
  match ae i with
  | none => savedRowText
  | some e => writeErrorText e

/-- The diagnostics produced by `n` append attempts starting at index `i`. -/
def expectedLog (ae : Nat → Option Str) (clk : Nat → Nat) : Nat → Nat → List LogEntry
  | _, 0 => []
  | i, n + 1 =>
    { time := clk i, text := expectedLogText ae i } :: expectedLog ae clk (i + 1) n

/-- The saving loop, characterized: it attempts exactly one CSV row per
`book_snapshot` message, in stream order, whatever the append outcomes; each
attempt leaves one timestamped log line; the file receives the successful
rows. -/
theorem processMessagesGo_eq (ae : Nat → Option Str) (clk : Nat → Nat) :
    ∀ (msgs : List Message) (i : Nat) (file : Option Str),
    processMessagesGo ae clk msgs i file =
      { file := appendRun ae
          ((msgs.filter (fun m => decide (m.type = bookSnapshotType))).map csvRowOf) i file
        log := expectedLog ae clk i
          (msgs.filter (fun m => decide (m.type = bookSnapshotType))).length
        attempts :=
          (msgs.filter (fun m => decide (m.type = bookSnapshotType))).map csvRowOf } := by
  intro msgs
  induction msgs with
  | nil => intro i file; rfl
  | cons m rest ih =>
    intro i file
    by_cases h : m.type = bookSnapshotType
    · rw [List.filter_cons_of_pos (by simpa using h)]
      cases hae : ae i with
      | none =>
        simp only [processMessagesGo, if_pos h, hae, ih]
        rw [List.map_cons, appendRun, List.length_cons, expectedLog,
          expectedLogText, hae]
      | some e =>
        simp only [processMessagesGo, if_pos h, hae, ih]
        rw [List.map_cons, appendRun, List.length_cons, expectedLog,
          expectedLogText, hae]
    · rw [List.filter_cons_of_neg (by simpa using h)]
      simp only [processMessagesGo, if_neg h, ih]

/-- C5: the serialized CSV row is a deterministic function of the snapshot
message's timestamp, local timestamp and best levels alone, and re-running
the saver over an identical delta sequence — under any append outcomes,
wall clock or initial file contents — produces byte-identical row bytes. -/
theorem snapshot_rows_deterministic (m₁ m₂ : Message)
    (saver : OrderBookSnapshotSaver) (src : Option (List BookDelta))
    (ae₁ ae₂ : Nat → Option Str) (clk₁ clk₂ : Nat → Nat) (f₁ f₂ : Option Str)
    (hts : m₁.timestamp = m₂.timestamp)
    (hlts : m₁.localTimestamp = m₂.localTimestamp)
    (hb : m₁.bids.head? = m₂.bids.head?)
    (ha : m₁.asks.head? = m₂.asks.head?) :
    csvRowOf m₁ = csvRowOf m₂
    ∧ (startSavingSnapshots saver src ae₁ clk₁ f₁).2.attempts
        = (startSavingSnapshots saver src ae₂ clk₂ f₂).2.attempts := by
  constructor
  · simp only [csvRowOf, rowBody, bidPrice0, bidAmount0, askPrice0, askAmount0,
      hts, hlts, hb, ha]
  · cases src with
    | none => rfl
    | some evs =>
      show (processMessagesGo ae₁ clk₁ _ 0 f₁).attempts
        = (processMessagesGo ae₂ clk₂ _ 0 f₂).attempts
      rw [processMessagesGo_eq, processMessagesGo_eq]

/-- C5 witness: two messages differing only in their symbol field, and two
runs with different append outcomes, clocks and files. -/
theorem snapshot_rows_deterministic_witness :
    csvRowOf { type := bookSnapshotType, symbol := "a".data, exchange := []
               timestamp := 7, localTimestamp := 8
               bids := [⟨100, 5⟩], asks := [⟨101, 3⟩] }
      = csvRowOf { type := bookSnapshotType, symbol := "b".data, exchange := []
                   timestamp := 7, localTimestamp := 8
                   bids := [⟨100, 5⟩], asks := [⟨101, 3⟩] }
    ∧ (startSavingSnapshots (mkOrderBookSnapshotSaver [] [] [] [] 0 none).1
         (some [⟨Side.bid, 100, 5, 0, 0⟩]) (fun _ => none) (fun i => i)
         (some headerRow)).2.attempts
      = (startSavingSnapshots (mkOrderBookSnapshotSaver [] [] [] [] 0 none).1
           (some [⟨Side.bid, 100, 5, 0, 0⟩]) (fun _ => some "disk full".data)
           (fun i => i + 9) none).2.attempts :=
  snapshot_rows_deterministic _ _ _ _ _ _ _ _ _ _ rfl rfl rfl rfl

/-- C3 counterexample: running the depth-1 pipeline over deltas that leave a
best bid at price 0 emits a snapshot whose best bid level is present
(price 0, amount 5), yet the written `bid_price_0` field is the empty value:
a present level's price IS replaced by the empty default, because the JS
fallback treats the number 0 as falsy. -/
theorem present_zero_price_serializes_empty :
    ((computeWithSnapshots [] []
        [⟨Side.bid, 0, 5, 0, 0⟩, ⟨Side.ask, 101, 3, 0, 1⟩,
         ⟨Side.ask, 101, 4, 60000, 60001⟩]).filter
        (fun m => decide (m.type = bookSnapshotType))).map
        (fun m => (m.bids.head?, bidPrice0 m))
      = [(some ⟨0, 5⟩, [])] := by decide

/-- C3 (amended): a missing side of an emitted snapshot serializes as
explicit empty values, and a present level's price or amount serializes
as the rendered value whenever it is nonzero; a zero price or amount also
serializes as the empty value (JS falsy coercion). -/
theorem absent_level_serialization (m : Message) :
    (m.bids.head? = none → bidPrice0 m = [] ∧ bidAmount0 m = [])
    ∧ (m.asks.head? = none → askPrice0 m = [] ∧ askAmount0 m = [])
    ∧ (∀ l, m.bids.head? = some l →
        (l.price ≠ 0 → bidPrice0 m = renderQ l.price)
        ∧ (l.amount ≠ 0 → bidAmount0 m = renderQ l.amount)
        ∧ (l.price = 0 → bidPrice0 m = [])
        ∧ (l.amount = 0 → bidAmount0 m = []))
    ∧ (∀ l, m.asks.head? = some l →
        (l.price ≠ 0 → askPrice0 m = renderQ l.price)
        ∧ (l.amount ≠ 0 → askAmount0 m = renderQ l.amount)
        ∧ (l.price = 0 → askPrice0 m = [])
        ∧ (l.amount = 0 → askAmount0 m = [])) := by
  constructor
  · intro h
    simp [bidPrice0, bidAmount0, h]
  constructor
  · intro h
    simp [askPrice0, askAmount0, h]
  constructor
  · intro l h
    refine ⟨fun h' => ?_, fun h' => ?_, fun h' => ?_, fun h' => ?_⟩ <;>
      simp [bidPrice0, bidAmount0, h, orEmptyQ, h']
  · intro l h
    refine ⟨fun h' => ?_, fun h' => ?_, fun h' => ?_, fun h' => ?_⟩ <;>
      simp [askPrice0, askAmount0, h, orEmptyQ, h']

/-- C3 witness: a concrete snapshot message with a nonzero best bid and no
ask: the bid price field is its rendered value, the ask fields are empty;
and a present bid with amount 0 serializes its amount field empty. -/
theorem absent_level_serialization_witness :
    bidPrice0 { type := bookSnapshotType, symbol := [], exchange := []
                timestamp := 0, localTimestamp := 0
                bids := [⟨100, 5⟩], asks := [] } = renderQ 100
    ∧ askPrice0 { type := bookSnapshotType, symbol := [], exchange := []
                  timestamp := 0, localTimestamp := 0
                  bids := [⟨100, 5⟩], asks := [] } = []
    ∧ bidAmount0 { type := bookSnapshotType, symbol := [], exchange := []
                   timestamp := 0, localTimestamp := 0
                   bids := [⟨100, 0⟩], asks := [] } = [] :=
  ⟨(((absent_level_serialization
        { type := bookSnapshotType, symbol := [], exchange := []
          timestamp := 0, localTimestamp := 0
          bids := [⟨100, 5⟩], asks := [] }).2.2.1 ⟨100, 5⟩ rfl).1 (by norm_num)),
   ((absent_level_serialization
        { type := bookSnapshotType, symbol := [], exchange := []
          timestamp := 0, localTimestamp := 0
          bids := [⟨100, 5⟩], asks := [] }).2.1 rfl).1,
   (((absent_level_serialization
        { type := bookSnapshotType, symbol := [], exchange := []
          timestamp := 0, localTimestamp := 0
          bids := [⟨100, 0⟩], asks := [] }).2.2.1 ⟨100, 0⟩ rfl).2.2.2 rfl)⟩

/-- An entry of the expected append-callback diagnostics, by index. -/
theorem mem_expectedLog (ae : Nat → Option Str) (clk : Nat → Nat) :
    ∀ (n i j : Nat), i ≤ j → j < i + n →
    ({ time := clk j, text := expectedLogText ae j } : LogEntry)
      ∈ expectedLog ae clk i n := by
  intro n
  induction n with
  | zero => intro i j h1 h2; omega
  | succ n ih =>
    intro i j h1 h2
    rw [expectedLog]
    rcases Nat.eq_or_lt_of_le h1 with rfl | hlt
    · exact List.mem_cons_self _ _
    · exact List.mem_cons_of_mem _ (ih (i + 1) j hlt (by omega))

/-- C4: a failed append is recorded in the diagnostics log with a timestamp;
the loop's attempted rows are the same as under an always-succeeding file
system (the failure halts nothing and drops nothing), and every
book_snapshot message's row is attempted exactly once, so the failed record
is never retried. -/
theorem append_failure_logged_and_loop_continues
    (ae : Nat → Option Str) (clk : Nat → Nat) (msgs : List Message)
    (f : Option Str) (j : Nat) (e : Str)
    (hj : j < (processMessagesGo ae clk msgs 0 f).attempts.length)
    (he : ae j = some e) :
    ({ time := clk j, text := writeErrorText e } : LogEntry)
      ∈ (processMessagesGo ae clk msgs 0 f).log
    ∧ (processMessagesGo ae clk msgs 0 f).attempts
      = (processMessagesGo (fun _ => none) clk msgs 0 f).attempts
    ∧ (processMessagesGo ae clk msgs 0 f).attempts
      = (msgs.filter (fun m => decide (m.type = bookSnapshotType))).map csvRowOf := by
  rw [processMessagesGo_eq] at hj ⊢
  rw [processMessagesGo_eq]
  refine ⟨?_, rfl, rfl⟩
  have hx : expectedLogText ae j = writeErrorText e := by
    rw [expectedLogText, he]
  rw [← hx]
  exact mem_expectedLog ae clk _ 0 j (Nat.zero_le j)
    (by simpa [List.length_map] using hj)

/-- C4 witness: one snapshot message, with the file system failing the
append. -/
theorem append_failure_logged_and_loop_continues_witness :
    0 < (processMessagesGo (fun _ => some "boom".data) (fun i => i + 3)
          [{ type := bookSnapshotType, symbol := [], exchange := []
             timestamp := 60000, localTimestamp := 60001
             bids := [⟨100, 5⟩], asks := [⟨101, 3⟩] }] 0 none).attempts.length
    ∧ (fun _ => some "boom".data) 0 = some "boom".data
    ∧ ({ time := (fun i => i + 3) 0, text := writeErrorText "boom".data } : LogEntry)
        ∈ (processMessagesGo (fun _ => some "boom".data) (fun i => i + 3)
            [{ type := bookSnapshotType, symbol := [], exchange := []
               timestamp := 60000, localTimestamp := 60001
               bids := [⟨100, 5⟩], asks := [⟨101, 3⟩] }] 0 none).log :=
  ⟨by decide, rfl,
   (append_failure_logged_and_loop_continues (fun _ => some "boom".data)
      (fun i => i + 3)
      [{ type := bookSnapshotType, symbol := [], exchange := []
         timestamp := 60000, localTimestamp := 60001
         bids := [⟨100, 5⟩], asks := [⟨101, 3⟩] }] none 0 "boom".data
      (by decide) rfl).1⟩

/-- Every character the digit renderer emits is a digit character. -/
theorem mem_renderNatGo {c : Char} :
    ∀ (fuel n : Nat), c ∈ renderNatGo fuel n → ∃ d, d < 10 ∧ c = digitChar d := by
  intro fuel
  induction fuel with
  | zero => intro n h; simp [renderNatGo] at h
  | succ fuel ih =>
    intro n h
    rw [renderNatGo] at h
    by_cases hn : n < 10
    · rw [if_pos hn] at h
      simp only [List.mem_singleton] at h
      exact ⟨n, hn, h⟩
    · rw [if_neg hn] at h
      rcases List.mem_append.mp h with h1 | h2
      · exact ih _ h1
      · simp only [List.mem_singleton] at h2
        exact ⟨n % 10, Nat.mod_lt _ (by norm_num), h2⟩

/-- Every character of a rendered natural is a digit character. -/
theorem mem_renderNat {c : Char} {n : Nat} (h : c ∈ renderNat n) :
    ∃ d, d < 10 ∧ c = digitChar d :=
  mem_renderNatGo _ _ h

/-- Every character of a rendered integer is a minus sign or a digit. -/
theorem mem_renderInt {c : Char} {i : ℤ} (h : c ∈ renderInt i) :
    c = '-' ∨ ∃ d, d < 10 ∧ c = digitChar d := by
  rw [renderInt] at h
  by_cases hi : i < 0
  · rw [if_pos hi] at h
    rcases List.mem_cons.mp h with h | h
    · exact Or.inl h
    · exact Or.inr (mem_renderNat h)
  · rw [if_neg hi] at h
    exact Or.inr (mem_renderNat h)

/-- Every character of a rendered rational is a minus sign, a slash or a
digit. -/
theorem mem_renderQ {c : Char} {q : ℚ} (h : c ∈ renderQ q) :
    c = '-' ∨ c = '/' ∨ ∃ d, d < 10 ∧ c = digitChar d := by
  rw [renderQ] at h
  by_cases hq : q.den = 1
  · rw [if_pos hq] at h
    rcases mem_renderInt h with h | h
    · exact Or.inl h
    · exact Or.inr (Or.inr h)
  · rw [if_neg hq] at h
    rcases List.mem_append.mp h with h1 | h2
    · rcases mem_renderInt h1 with h | h
      · exact Or.inl h
      · exact Or.inr (Or.inr h)
    · rcases List.mem_cons.mp h2 with h | h
      · exact Or.inr (Or.inl h)
      · exact Or.inr (Or.inr (mem_renderNat h))

/-- Every character of a possibly-suppressed rendered rational is a minus
sign, a slash or a digit. -/
theorem mem_orEmptyQ {c : Char} {q : ℚ} (h : c ∈ orEmptyQ q) :
    c = '-' ∨ c = '/' ∨ ∃ d, d < 10 ∧ c = digitChar d := by
  rw [orEmptyQ] at h
  by_cases hq : q = 0
  · rw [if_pos hq] at h
    simp at h
  · rw [if_neg hq] at h
    exact mem_renderQ h

/-- Digit characters are not the comma, the newline or the letter t. -/
theorem digitChar_ne : ∀ d, d < 10 →
    digitChar d ≠ ',' ∧ digitChar d ≠ '\n' ∧ digitChar d ≠ 't' := by decide

/-- The comma never occurs in a rendered natural. -/
theorem comma_not_mem_renderNat (n : Nat) : ',' ∉ renderNat n := fun h => by
  obtain ⟨d, hd, hc⟩ := mem_renderNat h
  exact (digitChar_ne d hd).1 hc.symm

/-- The comma never occurs in a possibly-suppressed rendered rational. -/
theorem comma_not_mem_orEmptyQ (q : ℚ) : ',' ∉ orEmptyQ q := fun h => by
  rcases mem_orEmptyQ h with h | h | ⟨d, hd, h⟩
  · exact absurd h (by decide)
  · exact absurd h (by decide)
  · exact (digitChar_ne d hd).1 h.symm

/-- The newline never occurs in a rendered natural. -/
theorem newline_not_mem_renderNat (n : Nat) : '\n' ∉ renderNat n := fun h => by
  obtain ⟨d, hd, hc⟩ := mem_renderNat h
  exact (digitChar_ne d hd).2.1 hc.symm

/-- The newline never occurs in a possibly-suppressed rendered rational. -/
theorem newline_not_mem_orEmptyQ (q : ℚ) : '\n' ∉ orEmptyQ q := fun h => by
  rcases mem_orEmptyQ h with h | h | ⟨d, hd, h⟩
  · exact absurd h (by decide)
  · exact absurd h (by decide)
  · exact (digitChar_ne d hd).2.1 h.symm

/-- `splitOnChar` never produces the empty list of pieces. -/
theorem splitOnChar_ne_nil (sep : Char) : ∀ l : Str, splitOnChar sep l ≠ []
  | [] => by simp [splitOnChar]
  | c :: cs => by
    rw [splitOnChar]
    by_cases h : c = sep
    · rw [if_pos h]; simp
    · rw [if_neg h]
      cases hs : splitOnChar sep cs <;> simp

/-- Splitting at the first separator after a separator-free prefix. -/
theorem splitOnChar_append_sep (sep : Char) :
    ∀ (a b : Str), sep ∉ a →
    splitOnChar sep (a ++ sep :: b) = a :: splitOnChar sep b
  | [], b, _ => by
    rw [List.nil_append, splitOnChar, if_pos rfl]
  | c :: a', b, ha => by
    have hc : ¬ c = sep := fun h => ha (by simp [h])
    have ha' : sep ∉ a' := fun h => ha (List.mem_cons_of_mem _ h)
    rw [List.cons_append, splitOnChar, if_neg hc,
      splitOnChar_append_sep sep a' b ha']

/-- A separator-free string splits into itself as the only piece. -/
theorem splitOnChar_of_not_mem (sep : Char) :
    ∀ (a : Str), sep ∉ a → splitOnChar sep a = [a]
  | [], _ => rfl
  | c :: a', ha => by
    have hc : ¬ c = sep := fun h => ha (by simp [h])
    have ha' : sep ∉ a' := fun h => ha (List.mem_cons_of_mem _ h)
    rw [splitOnChar, if_neg hc, splitOnChar_of_not_mem sep a' ha']

/-- C8: the written CSV row splits at commas into exactly the six columns
`timestamp, localTimestamp, bid_price_0, bid_amount_0, ask_price_0,
ask_amount_0` in that order, populated from the message's timestamps and
best levels; the row is newline-terminated with no header; and the loop
writes one row per `book_snapshot` message, nothing else. -/
theorem snapshot_row_fixed_columns (m : Message) :
    splitOnChar ',' (rowBody m)
      = [renderNat m.timestamp, renderNat m.localTimestamp,
         bidPrice0 m, bidAmount0 m, askPrice0 m, askAmount0 m]
    ∧ csvRowOf m = rowBody m ++ ['\n']
    ∧ ∀ (ae : Nat → Option Str) (clk : Nat → Nat) (msgs : List Message)
        (f : Option Str),
        (processMessagesGo ae clk msgs 0 f).attempts
          = (msgs.filter (fun m' => decide (m'.type = bookSnapshotType))).map csvRowOf := by
  have hfield : ∀ s : Str, (s = [] ∨ ∃ q, s = orEmptyQ q) → ',' ∉ s := by
    rintro s (rfl | ⟨q, rfl⟩)
    · simp
    · exact comma_not_mem_orEmptyQ q
  have hb : bidPrice0 m = [] ∨ ∃ q, bidPrice0 m = orEmptyQ q := by
    rw [bidPrice0]; cases m.bids.head?
    · exact Or.inl rfl
    · exact Or.inr ⟨_, rfl⟩
  have hba : bidAmount0 m = [] ∨ ∃ q, bidAmount0 m = orEmptyQ q := by
    rw [bidAmount0]; cases m.bids.head?
    · exact Or.inl rfl
    · exact Or.inr ⟨_, rfl⟩
  have hap : askPrice0 m = [] ∨ ∃ q, askPrice0 m = orEmptyQ q := by
    rw [askPrice0]; cases m.asks.head?
    · exact Or.inl rfl
    · exact Or.inr ⟨_, rfl⟩
  have haa : askAmount0 m = [] ∨ ∃ q, askAmount0 m = orEmptyQ q := by
    rw [askAmount0]; cases m.asks.head?
    · exact Or.inl rfl
    · exact Or.inr ⟨_, rfl⟩
  refine ⟨?_, rfl, ?_⟩
  · rw [rowBody,
      splitOnChar_append_sep _ _ _ (comma_not_mem_renderNat _),
      splitOnChar_append_sep _ _ _ (comma_not_mem_renderNat _),
      splitOnChar_append_sep _ _ _ (hfield _ hb),
      splitOnChar_append_sep _ _ _ (hfield _ hba),
      splitOnChar_append_sep _ _ _ (hfield _ hap),
      splitOnChar_of_not_mem _ _ (hfield _ haa)]
  · intro ae clk msgs f
    rw [processMessagesGo_eq]

/-- Joined newline-free rows split back into exactly those rows. -/
theorem splitOnChar_joinRows :
    ∀ (rows : List Str), rows ≠ [] → (∀ r ∈ rows, '\n' ∉ r) →
    splitOnChar '\n' (joinRows rows) = rows
  | [], hne, _ => absurd rfl hne
  | [r], _, h => by
    rw [joinRows, splitOnChar_of_not_mem _ _ (h r (by simp))]
  | r :: r2 :: rest, _, h => by
    rw [joinRows, splitOnChar_append_sep _ _ _ (h r (by simp)),
      splitOnChar_joinRows (r2 :: rest) (List.cons_ne_nil _ _)
        (fun x hx => h x (List.mem_cons_of_mem _ hx))]
    exact fun hx => List.noConfusion hx

/-- C9: on a successful fetch both token-list scripts write the CSV file
whose lines are exactly the header `id,type,availableSince` followed by one
line per available symbol, in response order, each line being that symbol's
id, type and availableSince joined by commas; the output directory exists
afterwards. -/
theorem token_list_csv_structure (syms : List SymbolInfo) (fs : TokenFsState)
    (hne : syms ≠ [])
    (hnl : ∀ s ∈ syms, '\n' ∉ s.id ∧ '\n' ∉ s.type ∧ '\n' ∉ s.availableSince) :
    (checkBinanceSymbolAvailability (Except.ok ⟨syms⟩) fs).1.file
      = some (tokenCsvContent syms)
    ∧ (checkBybitSymbolAvailability (Except.ok ⟨syms⟩) fs).1.file
      = some (tokenCsvContent syms)
    ∧ (checkBinanceSymbolAvailability (Except.ok ⟨syms⟩) fs).1.dirExists = true
    ∧ splitOnChar '\n' (tokenCsvContent syms)
      = tokenHeaderText :: syms.map symbolRow := by
  refine ⟨rfl, rfl, rfl, ?_⟩
  rw [tokenCsvContent, splitOnChar_append_sep _ _ _ (by decide),
    splitOnChar_joinRows _ (fun hnil => hne (List.map_eq_nil_iff.mp hnil)) ?_]
  intro r hr
  obtain ⟨s, hs, rfl⟩ := List.mem_map.mp hr
  intro hmem
  obtain ⟨h1, h2, h3⟩ := hnl s hs
  rw [symbolRow] at hmem
  simp only [List.mem_append, List.mem_cons] at hmem
  rcases hmem with (hm | hm | hm) | hm | hm
  · exact h1 hm
  · exact absurd hm (by decide)
  · exact h2 hm
  · exact absurd hm (by decide)
  · exact h3 hm

/-- C9 witness: one concrete symbol. -/
theorem token_list_csv_structure_witness :
    ([(⟨"a".data, "spot".data, "2020".data⟩ : SymbolInfo)] : List SymbolInfo) ≠ []
    ∧ (checkBinanceSymbolAvailability
         (Except.ok ⟨[⟨"a".data, "spot".data, "2020".data⟩]⟩)
         ⟨false, none⟩).1.file
        = some (tokenCsvContent [⟨"a".data, "spot".data, "2020".data⟩])
    ∧ splitOnChar '\n' (tokenCsvContent [⟨"a".data, "spot".data, "2020".data⟩])
        = tokenHeaderText
            :: ([⟨"a".data, "spot".data, "2020".data⟩] : List SymbolInfo).map symbolRow :=
  ⟨by decide,
   (token_list_csv_structure [⟨"a".data, "spot".data, "2020".data⟩]
      ⟨false, none⟩ (by decide) (by decide)).1,
   (token_list_csv_structure [⟨"a".data, "spot".data, "2020".data⟩]
      ⟨false, none⟩ (by decide) (by decide)).2.2.2⟩

/-- Each serialized field is empty or a suppressed rendered rational. -/
theorem bidPrice0_cases (m : Message) :
    bidPrice0 m = [] ∨ ∃ q, bidPrice0 m = orEmptyQ q := by
  rw [bidPrice0]; cases m.bids.head?
  · exact Or.inl rfl
  · exact Or.inr ⟨_, rfl⟩

/-- Each serialized field is empty or a suppressed rendered rational. -/
theorem bidAmount0_cases (m : Message) :
    bidAmount0 m = [] ∨ ∃ q, bidAmount0 m = orEmptyQ q := by
  rw [bidAmount0]; cases m.bids.head?
  · exact Or.inl rfl
  · exact Or.inr ⟨_, rfl⟩

/-- Each serialized field is empty or a suppressed rendered rational. -/
theorem askPrice0_cases (m : Message) :
    askPrice0 m = [] ∨ ∃ q, askPrice0 m = orEmptyQ q := by
  rw [askPrice0]; cases m.asks.head?
  · exact Or.inl rfl
  · exact Or.inr ⟨_, rfl⟩

/-- Each serialized field is empty or a suppressed rendered rational. -/
theorem askAmount0_cases (m : Message) :
    askAmount0 m = [] ∨ ∃ q, askAmount0 m = orEmptyQ q := by
  rw [askAmount0]; cases m.asks.head?
  · exact Or.inl rfl
  · exact Or.inr ⟨_, rfl⟩

/-- No newline occurs in a serialized level field. -/
theorem newline_not_mem_field (s : Str)
    (h : s = [] ∨ ∃ q, s = orEmptyQ q) : '\n' ∉ s := by
  rcases h with rfl | ⟨q, rfl⟩
  · simp
  · exact newline_not_mem_orEmptyQ q

/-- No newline occurs in the body of a CSV row. -/
theorem newline_not_mem_rowBody (m : Message) : '\n' ∉ rowBody m := by
  intro h
  rw [rowBody] at h
  simp only [List.mem_append, List.mem_cons] at h
  rcases h with h | h | h | h | h | h | h | h | h | h | h
  · exact newline_not_mem_renderNat _ h
  · exact absurd h (by decide)
  · exact newline_not_mem_renderNat _ h
  · exact absurd h (by decide)
  · exact newline_not_mem_field _ (bidPrice0_cases m) h
  · exact absurd h (by decide)
  · exact newline_not_mem_field _ (bidAmount0_cases m) h
  · exact absurd h (by decide)
  · exact newline_not_mem_field _ (askPrice0_cases m) h
  · exact absurd h (by decide)
  · exact newline_not_mem_field _ (askAmount0_cases m) h

/-- A rendered natural is never empty. -/
theorem renderNat_ne_nil (n : Nat) : renderNat n ≠ [] := by
  rw [renderNat, renderNatGo]
  by_cases hn : n < 10
  · rw [if_pos hn]; simp
  · rw [if_neg hn]; simp

/-- A CSV row body never equals the header text: the row starts with a
digit, the header with the letter t. -/
theorem rowBody_ne_headerText (m : Message) : rowBody m ≠ headerText := by
  intro h
  cases hr : renderNat m.timestamp with
  | nil => exact renderNat_ne_nil _ hr
  | cons c cs =>
    have hc : c ∈ renderNat m.timestamp := by
      rw [hr]; exact List.mem_cons_self _ _
    obtain ⟨d, hd, hcd⟩ := mem_renderNat hc
    have h0 : (rowBody m).head? = some 't' := by rw [h]; rfl
    rw [rowBody, hr, List.cons_append] at h0
    simp only [List.head?_cons, Option.some.injEq] at h0
    exact (digitChar_ne d hd).2.2 (hcd.symm.trans h0)

/-- With an always-succeeding file system, appending rows concatenates them
after the existing contents. -/
theorem appendRun_allOk :
    ∀ (rows : List Str) (i : Nat) (c : Str),
    appendRun (fun _ => none) rows i (some c) = some (c ++ rows.flatten)
  | [], i, c => by simp [appendRun]
  | row :: rest, i, c => by
    rw [appendRun]
    show appendRun _ rest (i + 1) (some (c ++ row)) = _
    rw [appendRun_allOk rest (i + 1) (c ++ row), List.flatten_cons,
      List.append_assoc]

/-- Joined newline-terminated rows with newline-free bodies split into
exactly those bodies followed by one empty trailing piece. -/
theorem splitOnChar_newline_rows :
    ∀ (bodies : List Str), (∀ b ∈ bodies, '\n' ∉ b) →
    splitOnChar '\n' ((bodies.map (fun b => b ++ ['\n'])).flatten) = bodies ++ [[]]
  | [], _ => by simp [splitOnChar]
  | b :: rest, h => by
    rw [List.map_cons, List.flatten_cons, List.append_assoc, List.singleton_append,
      splitOnChar_append_sep _ _ _ (h b (by simp)),
      splitOnChar_newline_rows rest (fun x hx => h x (List.mem_cons_of_mem _ hx)),
      List.cons_append]

/-- A file consisting of the header row followed by newline-terminated
snapshot rows contains the header line exactly once. -/
theorem count_header_lines (snaps : List Message) :
    List.count headerText
      (splitOnChar '\n' (headerRow ++ (snaps.map csvRowOf).flatten)) = 1 := by
  have hmap : snaps.map csvRowOf = (snaps.map rowBody).map (fun b => b ++ ['\n']) := by
    rw [List.map_map]
    rfl
  rw [hmap,
    show headerRow ++ ((snaps.map rowBody).map (fun b => b ++ ['\n'])).flatten
        = headerText ++ '\n' :: ((snaps.map rowBody).map (fun b => b ++ ['\n'])).flatten
      from by rw [headerRow, List.append_assoc, List.singleton_append],
    splitOnChar_append_sep _ _ _ (by decide),
    splitOnChar_newline_rows _ ?_]
  · rw [List.count_cons_self]
    have h0 : List.count headerText (snaps.map rowBody ++ [[]]) = 0 := by
      rw [List.count_eq_zero]
      intro hmem
      rcases List.mem_append.mp hmem with hmem | hmem
      · obtain ⟨m, _, hm⟩ := List.mem_map.mp hmem
        exact rowBody_ne_headerText m hm
      · simp only [List.mem_singleton] at hmem
        exact absurd hmem.symm (by decide)
    rw [h0]
  · intro b hb
    obtain ⟨m, _, hm⟩ := List.mem_map.mp hb
    rw [← hm]
    exact newline_not_mem_rowBody m

/-- C6: the constructor writes the header row exactly when the destination
file does not already exist; a run with succeeding appends then only
concatenates the snapshot rows after it, and the final file has exactly one
header line — appended rows never re-emit the header. -/
theorem header_written_exactly_once (ex sym fp dd : Str) (sd : Nat) (c₀ : Str)
    (src : List BookDelta) (clk : Nat → Nat) :
    (mkOrderBookSnapshotSaver ex sym fp dd sd none).2 = some headerRow
    ∧ (mkOrderBookSnapshotSaver ex sym fp dd sd (some c₀)).2 = some c₀
    ∧ (startSavingSnapshots (mkOrderBookSnapshotSaver ex sym fp dd sd none).1
         (some src) (fun _ => none) clk (some headerRow)).2.file
        = some (headerRow ++
            ((startSavingSnapshots (mkOrderBookSnapshotSaver ex sym fp dd sd none).1
               (some src) (fun _ => none) clk (some headerRow)).2.attempts).flatten)
    ∧ List.count headerText
        (splitOnChar '\n' (headerRow ++
          ((startSavingSnapshots (mkOrderBookSnapshotSaver ex sym fp dd sd none).1
             (some src) (fun _ => none) clk (some headerRow)).2.attempts).flatten))
        = 1 := by
  refine ⟨rfl, rfl, ?_, ?_⟩
  · show (processMessagesGo _ clk _ 0 (some headerRow)).file
      = some (headerRow ++
          ((processMessagesGo _ clk _ 0 (some headerRow)).attempts).flatten)
    rw [processMessagesGo_eq]
    exact appendRun_allOk _ 0 headerRow
  · show List.count headerText
      (splitOnChar '\n' (headerRow ++
        ((processMessagesGo _ clk _ 0 (some headerRow)).attempts).flatten)) = 1
    rw [processMessagesGo_eq]
    exact count_header_lines _

/-- The emission loop, characterized: starting from boundary `nb` with
enough fuel, it emits one record per grid point `nb, nb + interval, …` that
is at most `t`, and stops at the first grid point beyond `t`. -/
theorem emitLoopGo_eq (rec : SnapshotRecord) (t : Nat) :
    ∀ (fuel nb : Nat), t + 1 - nb ≤ fuel →
    emitLoopGo rec t fuel nb =
      (nb + interval * (if nb ≤ t then (t - nb) / interval + 1 else 0),
       List.replicate (if nb ≤ t then (t - nb) / interval + 1 else 0) rec) := by
  intro fuel
  induction fuel with
  | zero =>
    intro nb h
    have hnb : ¬ nb ≤ t := by omega
    rw [if_neg hnb]
    simp [emitLoopGo]
  | succ fuel ih =>
    intro nb h
    have hI : interval = 60000 := rfl
    by_cases hnb : nb ≤ t
    · have hfuel : t + 1 - (nb + interval) ≤ fuel := by
        simp only [hI]
        omega
      have hrec := ih (nb + interval) hfuel
      have hk : (if nb + interval ≤ t
            then (t - (nb + interval)) / interval + 1 else 0) + 1
          = (t - nb) / interval + 1 := by
        by_cases h2 : nb + interval ≤ t
        · rw [if_pos h2]
          simp only [hI] at h2 ⊢
          omega
        · rw [if_neg h2]
          simp only [hI] at h2 ⊢
          omega
      rw [if_pos hnb]
      simp only [emitLoopGo, if_pos hnb, hrec]
      rw [Prod.mk.injEq]
      refine ⟨?_, ?_⟩
      · rw [← hk]
        ring
      · rw [← hk, List.replicate_succ]
    · rw [if_neg hnb]
      simp [emitLoopGo, hnb]

/-- The emission loop entry point, characterized. -/
theorem emitLoop_eq (rec : SnapshotRecord) (nb t : Nat) :
    emitLoop rec nb t =
      (nb + interval * (if nb ≤ t then (t - nb) / interval + 1 else 0),
       List.replicate (if nb ≤ t then (t - nb) / interval + 1 else 0) rec) :=
  emitLoopGo_eq rec t _ nb (Nat.le_refl _)

/-- One consume step from the boundary after `tprev` to a delta at `t`:
the boundary advances to the grid point after `t`, and the number of emitted
records is the number of grid points crossed. -/
theorem boundary_step (tprev t : Nat) (hle : tprev ≤ t) :
    (tprev / interval + 1) * interval
        + interval * (if (tprev / interval + 1) * interval ≤ t
            then (t - (tprev / interval + 1) * interval) / interval + 1 else 0)
      = (t / interval + 1) * interval
    ∧ (if (tprev / interval + 1) * interval ≤ t
          then (t - (tprev / interval + 1) * interval) / interval + 1 else 0)
      = t / interval - tprev / interval := by
  have hI : interval = 60000 := rfl
  constructor
  · by_cases h2 : (tprev / interval + 1) * interval ≤ t
    · rw [if_pos h2]
      simp only [hI] at h2 ⊢
      omega
    · rw [if_neg h2]
      simp only [hI] at h2 ⊢
      omega
  · by_cases h2 : (tprev / interval + 1) * interval ≤ t
    · rw [if_pos h2]
      simp only [hI] at h2 ⊢
      omega
    · rw [if_neg h2]
      simp only [hI] at h2 ⊢
      omega

/-- In a non-decreasing chain the head is at most the last element. -/
theorem chain'_le_getLastD :
    ∀ (l : List Nat) (a : Nat), List.Chain' (· ≤ ·) (a :: l) → a ≤ l.getLastD a
  | [], a, _ => Nat.le_refl a
  | b :: l, a, h => by
    rw [List.getLastD_cons]
    obtain ⟨hab, h'⟩ := List.chain'_cons.mp h
    exact le_trans hab (chain'_le_getLastD l b h')

/-- A constant list is sorted. -/
theorem sorted_replicate (k a : Nat) :
    List.Sorted (· ≤ ·) (List.replicate k a) := by
  induction k with
  | zero => simp
  | succ k ih =>
    rw [List.replicate_succ, List.sorted_cons]
    refine ⟨fun b hb => ?_, ih⟩
    rw [List.eq_of_mem_replicate hb]

/-- The exchange timestamp of the last delta, `tprev` when there is none. -/
def lastTs (tprev : Nat) (ds : List BookDelta) : Nat :=
  (ds.map BookDelta.exchangeTimestamp).getLastD tprev

/-- The Tracking-state invariant of the sampler run: over deltas with
non-decreasing timestamps all at least `tprev`, starting at the boundary
after `tprev`, the run emits exactly one record per interval boundary
crossed between `tprev` and the last timestamp, ends at the boundary after
the last timestamp, and the emitted records carry non-decreasing timestamps
at least `tprev`. -/
theorem consumeAll_spec :
    ∀ (ds : List BookDelta) (st : SamplerState) (tprev : Nat),
    st.nextBoundary = some ((tprev / interval + 1) * interval) →
    List.Chain' (· ≤ ·) (tprev :: ds.map BookDelta.exchangeTimestamp) →
    (consumeAll st ds).1.nextBoundary
        = some ((lastTs tprev ds / interval + 1) * interval)
    ∧ (consumeAll st ds).2.length = lastTs tprev ds / interval - tprev / interval
    ∧ (∀ r ∈ (consumeAll st ds).2, tprev ≤ r.timestamp)
    ∧ List.Sorted (· ≤ ·) ((consumeAll st ds).2.map SnapshotRecord.timestamp) := by
  intro ds
  induction ds with
  | nil =>
    intro st tprev hb _
    refine ⟨?_, ?_, ?_, ?_⟩
    · simpa [consumeAll, lastTs, List.getLastD] using hb
    · simp [consumeAll, lastTs, List.getLastD]
    · simp [consumeAll]
    · simp [consumeAll]
  | cons d rest ih =>
    intro st tprev hb hchain
    rw [List.map_cons, List.chain'_cons] at hchain
    obtain ⟨hab, hchain'⟩ := hchain
    have hstep : consume st d
        = ({ book := applyDelta st.book d
             nextBoundary := some ((d.exchangeTimestamp / interval + 1) * interval) },
           List.replicate (d.exchangeTimestamp / interval - tprev / interval)
             (mkRecord d (applyDelta st.book d))) := by
      simp only [consume, hb, emitLoop_eq]
      rw [(boundary_step tprev d.exchangeTimestamp hab).1,
        (boundary_step tprev d.exchangeTimestamp hab).2]
    obtain ⟨ih1, ih2, ih3, ih4⟩ := ih
      ({ book := applyDelta st.book d
         nextBoundary := some ((d.exchangeTimestamp / interval + 1) * interval) })
      d.exchangeTimestamp rfl hchain'
    have hca : consumeAll st (d :: rest)
        = ((consumeAll
              ({ book := applyDelta st.book d
                 nextBoundary := some ((d.exchangeTimestamp / interval + 1) * interval) })
              rest).1,
           List.replicate (d.exchangeTimestamp / interval - tprev / interval)
               (mkRecord d (applyDelta st.book d))
             ++ (consumeAll
                  ({ book := applyDelta st.book d
                     nextBoundary := some ((d.exchangeTimestamp / interval + 1) * interval) })
                  rest).2) := by
      simp only [consumeAll, hstep]
    have hL : lastTs tprev (d :: rest) = lastTs d.exchangeTimestamp rest := by
      simp only [lastTs, List.map_cons, List.getLastD_cons]
    have hlast : d.exchangeTimestamp ≤ lastTs d.exchangeTimestamp rest :=
      chain'_le_getLastD _ _ hchain'
    rw [hca, hL]
    refine ⟨ih1, ?_, ?_, ?_⟩
    · rw [List.length_append, List.length_replicate, ih2]
      have h1 : tprev / interval ≤ d.exchangeTimestamp / interval :=
        Nat.div_le_div_right hab
      have h2 : d.exchangeTimestamp / interval ≤ lastTs d.exchangeTimestamp rest / interval :=
        Nat.div_le_div_right hlast
      omega
    · intro r hr
      rcases List.mem_append.mp hr with hr | hr
      · rw [List.eq_of_mem_replicate hr]
        exact hab
      · exact le_trans hab (ih3 r hr)
    · rw [List.map_append, List.map_replicate]
      refine List.pairwise_append.mpr ⟨sorted_replicate _ _, ih4, ?_⟩
      intro a ha b hb'
      obtain ⟨rr, hrr, rfl⟩ := List.mem_map.mp hb'
      rw [List.eq_of_mem_replicate ha]
      exact ih3 rr hrr

/-- The number of boundaries crossed expressed through truncated division. -/
theorem boundariesCrossed_eq_div (t0 tn : Nat) (h : t0 ≤ tn) :
    boundariesCrossed t0 tn = tn / interval - t0 / interval := by
  have hunion : Finset.Ioc 0 t0 ∪ Finset.Ioc t0 tn = Finset.Ioc 0 tn :=
    Finset.Ioc_union_Ioc_eq_Ioc (Nat.zero_le t0) h
  have hdisj : Disjoint (Finset.Ioc 0 t0) (Finset.Ioc t0 tn) := by
    rw [Finset.disjoint_left]
    intro a ha hb
    rw [Finset.mem_Ioc] at ha hb
    omega
  have hcard : ((Finset.Ioc 0 t0).filter (fun b => interval ∣ b)).card
      + ((Finset.Ioc t0 tn).filter (fun b => interval ∣ b)).card
      = ((Finset.Ioc 0 tn).filter (fun b => interval ∣ b)).card := by
    rw [← hunion, Finset.filter_union,
      Finset.card_union_of_disjoint (Finset.disjoint_filter_filter hdisj)]
  have h1 := Nat.Ioc_filter_dvd_card_eq_div t0 interval
  have h2 := Nat.Ioc_filter_dvd_card_eq_div tn interval
  rw [boundariesCrossed]
  omega

/-- The last delta's timestamp, through `lastTs`. -/
theorem getLast_ts :
    ∀ (d0 : BookDelta) (rest : List BookDelta) (h : d0 :: rest ≠ []),
    ((d0 :: rest).getLast h).exchangeTimestamp = lastTs d0.exchangeTimestamp rest
  | _, [], _ => rfl
  | d0, d1 :: rest, _ => by
    rw [List.getLast_cons (List.cons_ne_nil d1 rest), getLast_ts d1 rest]
    simp only [lastTs, List.map_cons, List.getLastD_cons]

/-- C1: over any delta sequence with monotonically non-decreasing
timestamps, the depth-1, 60000 ms pipeline emits exactly one snapshot record
per interval boundary crossed between the first and the last delta, and the
emitted records' timestamps are in non-decreasing order. -/
theorem sampler_one_record_per_boundary_in_order (ds : List BookDelta)
    (hne : ds ≠ [])
    (hmono : List.Chain' (· ≤ ·) (ds.map BookDelta.exchangeTimestamp)) :
    (runSampler ds).length
      = boundariesCrossed (ds.head hne).exchangeTimestamp
          (ds.getLast hne).exchangeTimestamp
    ∧ List.Sorted (· ≤ ·) ((runSampler ds).map SnapshotRecord.timestamp) := by
  cases ds with
  | nil => exact absurd rfl hne
  | cons d0 rest =>
    rw [List.map_cons] at hmono
    obtain ⟨h1, h2, h3, h4⟩ := consumeAll_spec rest
      ({ book := applyDelta initSampler.book d0
         nextBoundary := some ((d0.exchangeTimestamp / interval + 1) * interval) })
      d0.exchangeTimestamp rfl hmono
    have hrun : runSampler (d0 :: rest)
        = (consumeAll
            ({ book := applyDelta initSampler.book d0
               nextBoundary := some ((d0.exchangeTimestamp / interval + 1) * interval) })
            rest).2 := rfl
    rw [hrun]
    refine ⟨?_, h4⟩
    have hle : d0.exchangeTimestamp ≤ lastTs d0.exchangeTimestamp rest :=
      chain'_le_getLastD _ _ hmono
    rw [h2, getLast_ts d0 rest, List.head_cons,
      boundariesCrossed_eq_div _ _ hle]

/-- C1 witness: three deltas, the last two 59000 ms and 180000 ms in,
crossing boundaries 60000, 120000 and 180000. -/
theorem sampler_one_record_per_boundary_in_order_witness :
    ([⟨Side.bid, 100, 5, 0, 0⟩, ⟨Side.bid, 101, 6, 59000, 59001⟩,
      ⟨Side.ask, 102, 7, 180000, 180001⟩] : List BookDelta) ≠ []
    ∧ List.Chain' (· ≤ ·)
        (([⟨Side.bid, 100, 5, 0, 0⟩, ⟨Side.bid, 101, 6, 59000, 59001⟩,
           ⟨Side.ask, 102, 7, 180000, 180001⟩] : List BookDelta).map
          BookDelta.exchangeTimestamp)
    ∧ (runSampler [⟨Side.bid, 100, 5, 0, 0⟩, ⟨Side.bid, 101, 6, 59000, 59001⟩,
         ⟨Side.ask, 102, 7, 180000, 180001⟩]).length
        = boundariesCrossed 0 180000
    ∧ List.Sorted (· ≤ ·)
        ((runSampler [⟨Side.bid, 100, 5, 0, 0⟩, ⟨Side.bid, 101, 6, 59000, 59001⟩,
           ⟨Side.ask, 102, 7, 180000, 180001⟩]).map SnapshotRecord.timestamp) :=
  ⟨by decide, by simp [List.chain'_cons],
   (sampler_one_record_per_boundary_in_order
      [⟨Side.bid, 100, 5, 0, 0⟩, ⟨Side.bid, 101, 6, 59000, 59001⟩,
       ⟨Side.ask, 102, 7, 180000, 180001⟩] (by decide)
      (by simp [List.chain'_cons])).1,
   (sampler_one_record_per_boundary_in_order
      [⟨Side.bid, 100, 5, 0, 0⟩, ⟨Side.bid, 101, 6, 59000, 59001⟩,
       ⟨Side.ask, 102, 7, 180000, 180001⟩] (by decide)
      (by simp [List.chain'_cons])).2⟩
